import Mathlib

/-!
# RupX recognition-and-attendance core: verification development

A shallow embedding, in Lean 4, of the recognition-and-attendance engine of
the RupX repository, together with theorems settling the specification's
claims about it.

The repository ships the frontend JavaScript, the SQLite schema and the
deployment script; the Flask backend implementing the ledger, matcher,
session registry, identity store and unknown tracker is not part of the
delivered sources.  Components whose code is absent are modelled from the
specification (each such definition says so in its doc comment); the SQL
schema (found at the end of `src/frontend/dashboard/projects.js`) and the
browser-side ML client (`ml-client.js`) and training page (`train` page
script, `displayModelMetrics`) are embedded directly from the source.
-/

namespace RupX

/-! ## Attendance data model

`AttendanceRecord` mirrors a row of the `attendance_records` table
(schema in `src/frontend/dashboard/projects.js`): project id, identity
name, marking timestamp and session id.  Timestamps are modelled as
seconds since the epoch (`Nat`); the schema stores them as TEXT but only
their ordering and calendar day matter here. -/

structure AttendanceRecord where
  project_id : Nat
  identity_name : String
  marked_at : Nat
  session_id : String
deriving DecidableEq, Repr

/-- One row of the persisted `attendance_records` table, exactly the columns
declared by the schema in `src/frontend/dashboard/projects.js`:
`id INTEGER PRIMARY KEY AUTOINCREMENT, project_id INTEGER NOT NULL,
name TEXT NOT NULL, marked_at TEXT NOT NULL, session_id TEXT`. -/
structure AttendanceRow where
  id : Nat
  project_id : Nat
  name : String
  marked_at : Nat
  session_id : Option String
deriving DecidableEq, Repr

/-- The integrity constraints the schema actually declares on
`attendance_records`: `id` is the primary key (unique), and the foreign key
`project_id` must reference an existing project.  The NOT NULL columns are
captured by the row type itself.  The schema declares no other constraint on
this table — in particular no UNIQUE constraint over
(project_id, name, day-or-session). -/
def schemaValid (projectIds : List Nat) (rows : List AttendanceRow) : Prop :=
  rows.Pairwise (fun r1 r2 => r1.id ≠ r2.id) ∧
  ∀ r ∈ rows, r.project_id ∈ projectIds

instance (projectIds : List Nat) (rows : List AttendanceRow) :
    Decidable (schemaValid projectIds rows) := by
  unfold schemaValid; infer_instance

/-- Calendar day of a timestamp, with the day boundary fixed at UTC
(86400 seconds per day, no ambient time zone). -/
def dayOf (t : Nat) : Nat := t / 86400

/-- The two per-project attendance accounting policies. -/
inductive AttendanceMode where
  | daily
  | session
deriving DecidableEq, Repr

/-- Outcome of a marking attempt: `Marked` (a new record was inserted) or
`AlreadyMarked` (a record for the current accounting window already
existed; a normal outcome, not an error). -/
inductive MarkResult where
  | Marked
  | AlreadyMarked
deriving DecidableEq, Repr

/-- Whether an existing record blocks a new mark for
(`pid`, `iname`) in the accounting window of `now` / `sid` under `mode`:
same calendar day under the daily policy, same session id under the
session policy. -/
def inWindow (mode : AttendanceMode) (pid : Nat) (iname : String)
    (sid : String) (now : Nat) (r : AttendanceRecord) : Bool :=
  match mode with
  | .daily =>
      r.project_id == pid && r.identity_name == iname &&
        dayOf r.marked_at == dayOf now
  | .session =>
      r.project_id == pid && r.identity_name == iname &&
        r.session_id == sid

/-- Modelled from the spec: the AttendanceLedger's eligibility predicate
(§4.3); the Flask backend implementing it is not among the delivered
sources.  Eligible iff no existing record falls in the current accounting
window. -/
def eligible (recs : List AttendanceRecord) (pid : Nat) (iname : String)
    (sid : String) (mode : AttendanceMode) (now : Nat) : Bool :=
  !(recs.any (inWindow mode pid iname sid now))

/-- Modelled from the spec: `AttendanceLedger.mark_if_eligible` (§4.3); the
Flask backend implementing it is not among the delivered sources.  On
eligibility it inserts exactly one new record and returns `Marked`;
otherwise it returns `AlreadyMarked` and leaves the ledger unchanged. -/
def mark_if_eligible (recs : List AttendanceRecord) (pid : Nat)
    (iname : String) (sid : String) (mode : AttendanceMode) (now : Nat) :
    MarkResult × List AttendanceRecord :=
  if eligible recs pid iname sid mode now then
    (.Marked, ⟨pid, iname, now, sid⟩ :: recs)
  else
    (.AlreadyMarked, recs)

/-- Number of records of the ledger lying in the accounting window of
(`pid`, `iname`, `sid`, `now`) under `mode`. -/
def countWindow (recs : List AttendanceRecord) (pid : Nat) (iname : String)
    (sid : String) (mode : AttendanceMode) (now : Nat) : Nat :=
  (recs.filter (inWindow mode pid iname sid now)).length

/-- Two records fall in the same accounting window: same project and
identity, and same calendar day (daily policy) or same session id
(session policy). -/
def sameWindow (mode : AttendanceMode) (r1 r2 : AttendanceRecord) : Bool :=
  match mode with
  | .daily =>
      r1.project_id == r2.project_id && r1.identity_name == r2.identity_name &&
        dayOf r1.marked_at == dayOf r2.marked_at
  | .session =>
      r1.project_id == r2.project_id && r1.identity_name == r2.identity_name &&
        r1.session_id == r2.session_id

/-- The uniqueness invariant of the spec: at most one record per accounting
window, stated as: no two records at distinct positions of the ledger fall
in the same window. -/
def uniqueWindows (mode : AttendanceMode) (recs : List AttendanceRecord) : Prop :=
  recs.Pairwise (fun r1 r2 => sameWindow mode r1 r2 = false)

instance (mode : AttendanceMode) (recs : List AttendanceRecord) :
    Decidable (uniqueWindows mode recs) := by
  unfold uniqueWindows; infer_instance

/-! ## Matcher

Modelled from the spec (§4.2): the Flask backend implementing
`Matcher.match` is not among the delivered sources.  Scores are exact
rationals standing in for the backend's floating-point similarities. -/

/-- A trained reference vector: identity name plus embedding. -/
structure IdentityVector where
  identity_name : String
  vector : List ℚ
deriving DecidableEq, Repr

/-- Dot product of two embeddings — cosine similarity on pre-normalized
vectors. -/
def sim (v w : List ℚ) : ℚ := (List.zipWith (fun a b => a * b) v w).sum

/-- Result of matching one embedding against a store. -/
inductive MatchResult where
  | Known (identity_name : String) (score : ℚ)
  | Unknown (score : ℚ)
  | EmptyStore
deriving DecidableEq, Repr

/-- Per-identity similarity scores of an embedding against a store. -/
def simScores (store : List IdentityVector) (emb : List ℚ) :
    List (String × ℚ) :=
  store.map (fun iv => (iv.identity_name, sim iv.vector emb))

/-- Select the entry with the maximal score (first maximal on ties by
score). -/
def topPair : String × ℚ → List (String × ℚ) → String × ℚ
  | p, [] => p
  | p, q :: qs => topPair (if p.2 < q.2 then q else p) qs

/-- Maximal score among `p :: ps`. -/
def maxScore (p : String × ℚ) (ps : List (String × ℚ)) : ℚ :=
  (ps.map Prod.snd).foldl max p.2

/-- Maximal similarity of `emb` against the store (0 for an empty store,
which `matchEmb` reports as `EmptyStore` anyway). -/
def topScoreOf (store : List IdentityVector) (emb : List ℚ) : ℚ :=
  match store with
  | [] => 0
  | iv :: ivs =>
      maxScore (iv.identity_name, sim iv.vector emb) (simScores ivs emb)

/-- Number of store entries whose score lies within `eps` of the top
score (the top entry itself always counts, for `0 ≤ eps`). -/
def tieCount (eps : ℚ) (store : List IdentityVector) (emb : List ℚ) : Nat :=
  ((simScores store emb).filter
    (fun q => decide (topScoreOf store emb - q.2 ≤ eps))).length

/-- Modelled from the spec: `Matcher.match` (§4.2); the Flask backend
implementing it is not among the delivered sources.  Computes the
similarity of the embedding to every identity vector, selects the maximum,
downgrades to `Unknown` when a second identity lies within `eps` of the
top score, otherwise answers `Known` iff the top score reaches the
threshold. -/
def matchEmb (threshold eps : ℚ) (store : List IdentityVector)
    (emb : List ℚ) : MatchResult :=
  match store with
  | [] => .EmptyStore
  | iv :: ivs =>
      let p := (iv.identity_name, sim iv.vector emb)
      let ps := simScores ivs emb
      let top := topPair p ps
      if 2 ≤ ((p :: ps).filter (fun q => decide (top.2 - q.2 ≤ eps))).length
      then .Unknown top.2
      else if threshold ≤ top.2 then .Known top.1 top.2
      else .Unknown top.2

/-! ## Recognition sessions and the session registry

Modelled from the spec (§3, §4.5): the Flask backend owning the session
state machine is not among the delivered sources. -/

/-- Session life-cycle states. -/
inductive SessionState where
  | Starting
  | Active
  | Stopped
deriving DecidableEq, Repr

/-- One recognition session; `boundStore` is the identity-store snapshot
the session was bound to at its Active transition. -/
structure RecognitionSession where
  session_id : String
  project_id : Nat
  user_id : Nat
  state : SessionState
  boundStore : List IdentityVector
deriving DecidableEq, Repr

/-- Stop every Active session of the given project. -/
def stopProject (sessions : List RecognitionSession) (pid : Nat) :
    List RecognitionSession :=
  sessions.map (fun s =>
    if s.project_id == pid && s.state == SessionState.Active then
      { s with state := .Stopped }
    else s)

/-- Is `s` an Active session of project `pid`? -/
def isActiveFor (pid : Nat) (s : RecognitionSession) : Bool :=
  s.project_id == pid && s.state == SessionState.Active

/-- Number of Active sessions of a project. -/
def countActive (sessions : List RecognitionSession) (pid : Nat) : Nat :=
  (sessions.filter (isActiveFor pid)).length

/-- The SessionRegistry invariant: at most one Active session per
project. -/
def AtMostOneActive (sessions : List RecognitionSession) : Prop :=
  ∀ pid, countActive sessions pid ≤ 1

/-- Modelled from the spec: `SessionRegistry` start handling (§4.5); the
Flask backend implementing it is not among the delivered sources.  With no
current store the start fails (`NotTrained`) and the registry is
unchanged; otherwise every Active session of the project is stopped first
and the new session becomes Active, bound to the current store. -/
def start_session (sessions : List RecognitionSession) (sid : String)
    (pid uid : Nat) (cur : Option (List IdentityVector)) :
    List RecognitionSession :=
  match cur with
  | none => sessions
  | some st => ⟨sid, pid, uid, .Active, st⟩ :: stopProject sessions pid

/-- Outcome of feeding one embedding to a session. -/
inductive ProcessResult where
  | Recognized (identity_name : String) (score : ℚ) (mark : MarkResult)
  | UnknownFace (score : ℚ)
  | NotTrainedStore
  | Dropped
deriving DecidableEq, Repr

/-- Modelled from the spec: per-embedding processing of a
RecognitionSession (§2, §4.5, §5); the Flask backend implementing it is
not among the delivered sources.  A session that is not Active silently
drops the embedding (`SessionStopped` condition, `Dropped` here) and
leaves the ledger untouched; an Active session matches against its bound
store and, on a known match, consults the ledger. -/
def process_embedding (threshold eps : ℚ) (s : RecognitionSession)
    (recs : List AttendanceRecord) (emb : List ℚ) (mode : AttendanceMode)
    (now : Nat) : ProcessResult × List AttendanceRecord :=
  if s.state == SessionState.Active then
    match matchEmb threshold eps s.boundStore emb with
    | .Known n sc =>
        let res := mark_if_eligible recs s.project_id n s.session_id mode now
        (.Recognized n sc res.1, res.2)
    | .Unknown sc => (.UnknownFace sc, recs)
    | .EmptyStore => (.NotTrainedStore, recs)
  else (.Dropped, recs)

/-- Whole-core state: the per-project published stores, the sessions and
the attendance ledger. -/
structure SysState where
  stores : List (Nat × List IdentityVector)
  sessions : List RecognitionSession
  records : List AttendanceRecord
deriving DecidableEq, Repr

/-- The current published store of a project, if any. -/
def SysState.currentStore (sys : SysState) (pid : Nat) :
    Option (List IdentityVector) :=
  (sys.stores.find? (fun p => p.1 == pid)).map (fun p => p.2)

/-- Start a session at system level: the new session binds the project's
current store at its Active transition. -/
def SysState.startSession (sys : SysState) (sid : String) (pid uid : Nat) :
    SysState :=
  { sys with
      sessions := start_session sys.sessions sid pid uid
        (sys.currentStore pid) }

/-- Atomically publish a new identity store for a project (a training run
completing), leaving sessions and ledger untouched. -/
def SysState.replaceStore (sys : SysState) (pid : Nat)
    (st : List IdentityVector) : SysState :=
  { sys with stores := (pid, st) :: sys.stores.filter (fun p => !(p.1 == pid)) }

/-- Route one embedding to the session with the given id and process
it. -/
def SysState.processEmbedding (sys : SysState) (threshold eps : ℚ)
    (sid : String) (emb : List ℚ) (mode : AttendanceMode) (now : Nat) :
    ProcessResult × SysState :=
  match sys.sessions.find? (fun s => s.session_id == sid) with
  | none => (.Dropped, sys)
  | some s =>
      let res := process_embedding threshold eps s sys.records emb mode now
      (res.1, { sys with records := res.2 })

/-! ## IdentityStore registry (build / current)

Modelled from the spec (§4.1): the Flask backend implementing the trained
model registry is not among the delivered sources. -/

/-- A versioned, immutable identity store. -/
structure IdentityStoreV where
  project_id : Nat
  version : Nat
  vectors : List IdentityVector
deriving DecidableEq, Repr

/-- Failure of `build`. -/
inductive BuildError where
  | ValidationError
deriving DecidableEq, Repr

/-- All vectors share one dimensionality. -/
def dimsConsistent (vectors : List IdentityVector) : Bool :=
  match vectors with
  | [] => true
  | v :: vs => vs.all (fun w => w.vector.length == v.vector.length)

/-- Registry of published stores; `published` keeps newest first, so
`find?` returns the latest. -/
structure StoreRegistry where
  latestVersion : Nat
  published : List (Nat × IdentityStoreV)
deriving DecidableEq, Repr

/-- Modelled from the spec: `IdentityStore.current(project_id)` (§4.1);
the Flask backend implementing it is not among the delivered sources.
Returns the latest successfully built store, `none` standing for
`NotTrained`. -/
def StoreRegistry.current (reg : StoreRegistry) (pid : Nat) :
    Option IdentityStoreV :=
  (reg.published.find? (fun p => p.1 == pid)).map (fun p => p.2)

/-- Modelled from the spec: `IdentityStore.build(vectors)` (§4.1); the
Flask backend implementing it is not among the delivered sources.  Fails
with `ValidationError` on an empty vector list or mismatched dimensions;
otherwise publishes an immutable store under a strictly increased
version. -/
def StoreRegistry.build (reg : StoreRegistry) (pid : Nat)
    (vectors : List IdentityVector) :
    Except BuildError (IdentityStoreV × StoreRegistry) :=
  if vectors.isEmpty || !dimsConsistent vectors then
    .error .ValidationError
  else
    let v := reg.latestVersion + 1
    let store : IdentityStoreV := ⟨pid, v, vectors⟩
    .ok (store, ⟨v, (pid, store) :: reg.published⟩)

/-! ## UnknownTracker

Modelled from the spec (§4.4): the Flask backend implementing the
unknown-face streak tracker is not among the delivered sources. -/

/-- Per-(session, track-key) streak state. -/
structure UnknownStreak where
  consecutive_unknown_count : Nat
  notified : Bool
deriving DecidableEq, Repr

/-- Notification decision for one unknown observation. -/
inductive NotifyResult where
  | Notify
  | Silent
deriving DecidableEq, Repr

/-- The tracker: a persistence threshold and the streak map, keyed by
(session_id, track_key). -/
structure UnknownTracker where
  threshold : Nat
  streaks : List ((String × String) × UnknownStreak)
deriving DecidableEq, Repr

/-- Streak for a key, a fresh zero streak when absent. -/
def UnknownTracker.lookup (t : UnknownTracker) (sid tk : String) :
    UnknownStreak :=
  ((t.streaks.find? (fun p => p.1 == (sid, tk))).map (fun p => p.2)).getD
    ⟨0, false⟩

/-- Store the streak of a key. -/
def UnknownTracker.put (t : UnknownTracker) (sid tk : String)
    (s : UnknownStreak) : UnknownTracker :=
  { t with
      streaks := ((sid, tk), s) ::
        t.streaks.filter (fun p => !(p.1 == (sid, tk))) }

/-- Modelled from the spec: `UnknownTracker.observe_unknown` (§4.4); the
Flask backend implementing it is not among the delivered sources.
Increments the key's streak; emits `Notify` the first time the streak
reaches the threshold (never again until reset). -/
def observe_unknown (t : UnknownTracker) (sid tk : String) :
    NotifyResult × UnknownTracker :=
  let s := t.lookup sid tk
  let c := s.consecutive_unknown_count + 1
  if decide (t.threshold ≤ c) && !s.notified then
    (.Notify, t.put sid tk ⟨c, true⟩)
  else
    (.Silent, t.put sid tk ⟨c, s.notified⟩)

/-- Modelled from the spec: `UnknownTracker.observe_known` (§4.4); the
Flask backend implementing it is not among the delivered sources.  A
recognized match resets the key's streak. -/
def observe_known (t : UnknownTracker) (sid tk : String) : UnknownTracker :=
  t.put sid tk ⟨0, false⟩

/-- Tracker after `n` consecutive `observe_unknown` calls on one key. -/
def iterUnknown (t : UnknownTracker) (sid tk : String) : Nat → UnknownTracker
  | 0 => t
  | n + 1 => (observe_unknown (iterUnknown t sid tk n) sid tk).2

/-- Result of the `(n+1)`-th consecutive `observe_unknown` call on one
key. -/
def resultAtCall (t : UnknownTracker) (sid tk : String) (n : Nat) :
    NotifyResult :=
  (observe_unknown (iterUnknown t sid tk n) sid tk).1

/-! ## Training metrics display

Embedded from `displayModelMetrics` in the training page script
(`src/unnamed/part_003`). -/

/-- Round to four decimal places, as the page's `toFixed(4)` does on the
(positive) metric values. -/
def round4 (x : ℚ) : ℚ := (round (x * 10000) : ℤ) / 10000

/-- The fields of the latest-training object the display code reads
(`accuracy` and `precision` are nullable in the `training_logs` schema),
plus the other reported counters — which the metric formulas ignore. -/
structure TrainingInfo where
  accuracy : Option ℚ
  precision : Option ℚ
  identities : Nat
  processed : Nat
  skipped : Nat
  duration : ℚ
deriving DecidableEq, Repr

/-- What the metrics panel shows; `none` renders as the literal text
N/A. -/
structure MetricsDisplay where
  accuracyShown : Option ℚ
  precisionShown : Option ℚ
  intra : Option ℚ
  inter : Option ℚ
deriving DecidableEq, Repr

/-- Embedded from `displayModelMetrics` (`src/unnamed/part_003`): reads
`training.accuracy || 0` and `training.precision || 0`; when accuracy is
positive it shows the accuracy and precision percentages and *estimates*
the intra/inter-class metrics from accuracy alone via the fixed formulas
`(0.65 + accuracy / 200).toFixed(4)` and
`((100 - accuracy) / 150).toFixed(4)`. -/
def displayModelMetrics (training : TrainingInfo) : MetricsDisplay :=
  let accuracy := training.accuracy.getD 0
  let precisionValue := training.precision.getD 0
  { accuracyShown := if 0 < accuracy then some accuracy else none
    precisionShown := if 0 < precisionValue then some precisionValue else none
    intra :=
      if 0 < accuracy then some (round4 (65 / 100 + accuracy / 200)) else none
    inter :=
      if 0 < accuracy then some (round4 ((100 - accuracy) / 150)) else none }

/-! ## Browser-side embedding pipeline

Embedded from `ml-client.js` (`src/unnamed/part_002`).  The
floating-point arithmetic of the source is idealized as exact real
arithmetic. -/

/-- Embedded from `generateEmbedding` / `generateEmbeddingFromImage`
(`src/unnamed/part_002`): the raw model output is zero-padded to 512
components when shorter, truncated to 512 when longer. -/
def padTo512 (xs : List ℝ) : List ℝ :=
  if xs.length < 512 then xs ++ List.replicate (512 - xs.length) 0
  else xs.take 512

/-- Sum of squared components (the squared Euclidean norm). -/
def sumSq (xs : List ℝ) : ℝ := (xs.map (fun x => x * x)).sum

/-- Embedded from the final normalization step of `generateEmbedding`,
`generateEmbeddingFromImage` and `averageEmbeddings`
(`src/unnamed/part_002`): every component is divided by the Euclidean
norm. -/
noncomputable def l2normalize (xs : List ℝ) : List ℝ :=
  xs.map (fun x => x / Real.sqrt (sumSq xs))

/-- The shared tail of `generateEmbedding` and
`generateEmbeddingFromImage` (`src/unnamed/part_002`): pad or truncate to
512 components, then L2-normalize. -/
noncomputable def embeddingPostprocess (raw : List ℝ) : List ℝ :=
  l2normalize (padTo512 raw)

/-- Embedded from the accumulation loop of `averageEmbeddings`
(`src/unnamed/part_002`): `emb.forEach((val, i) => sum[i] += val)` adds
each component of `e` into the matching slot of `s`, leaving slots past
the end of `e` unchanged. -/
def addInto (s e : List ℝ) : List ℝ :=
  List.zipWith (fun a b => a + b) s e ++ s.drop e.length

/-- Embedded from `averageEmbeddings` (`src/unnamed/part_002`): the
componentwise mean over a 512-slot accumulator, before normalization. -/
noncomputable def avgVector (embs : List (List ℝ)) : List ℝ :=
  (embs.foldl addInto (List.replicate 512 0)).map
    (fun v => v / (embs.length : ℝ))

/-- Embedded from `averageEmbeddings` (`src/unnamed/part_002`): mean of
the given embeddings, L2-normalized. -/
noncomputable def averageEmbeddings (embs : List (List ℝ)) : List ℝ :=
  l2normalize (avgVector embs)

/-! ## Concrete instances used as counterexamples and witnesses -/

/-- Two `attendance_records` rows identical in project, name, timestamp
and session id, differing only in the primary key `id`. -/
def dupAttendanceRows : List AttendanceRow :=
  [⟨1, 1, "alice", 1000, some "s1"⟩, ⟨2, 1, "alice", 1000, some "s1"⟩]

end RupX

namespace RupX

lemma inWindow_of_sameWindow (mode : AttendanceMode) (pid : Nat)
    (iname : String) (sid : String) (now : Nat) (r r' : AttendanceRecord)
    (hr : inWindow mode pid iname sid now r = true)
    (hs : sameWindow mode r r' = true) :
    inWindow mode pid iname sid now r' = true := by
  cases mode <;>
    simp only [inWindow, sameWindow, Bool.and_eq_true, beq_iff_eq] at * <;>
    exact ⟨⟨hs.1.1 ▸ hr.1.1, hs.1.2 ▸ hr.1.2⟩, hs.2 ▸ hr.2⟩

lemma sameWindow_symm (mode : AttendanceMode) (r1 r2 : AttendanceRecord)
    (h : sameWindow mode r1 r2 = true) : sameWindow mode r2 r1 = true := by
  cases mode <;>
    simp only [sameWindow, Bool.and_eq_true, beq_iff_eq] at * <;>
    exact ⟨⟨h.1.1.symm, h.1.2.symm⟩, h.2.symm⟩

lemma inWindow_newRecord (mode : AttendanceMode) (pid : Nat) (iname : String)
    (sid : String) (now : Nat) :
    inWindow mode pid iname sid now ⟨pid, iname, now, sid⟩ = true := by
  cases mode <;> simp [inWindow]

/-- A record blocking the window is in the same window as the freshly
inserted record. -/
lemma sameWindow_new_of_inWindow (mode : AttendanceMode) (pid : Nat)
    (iname : String) (sid : String) (now : Nat) (r : AttendanceRecord)
    (hr : inWindow mode pid iname sid now r = true) :
    sameWindow mode (⟨pid, iname, now, sid⟩ : AttendanceRecord) r = true := by
  cases mode <;>
    simp only [inWindow, sameWindow, Bool.and_eq_true, beq_iff_eq] at * <;>
    exact ⟨⟨hr.1.1.symm, hr.1.2.symm⟩, hr.2.symm⟩

lemma inWindow_of_sameWindow_new (mode : AttendanceMode) (pid : Nat)
    (iname : String) (sid : String) (now : Nat) (r : AttendanceRecord)
    (hs : sameWindow mode (⟨pid, iname, now, sid⟩ : AttendanceRecord) r = true) :
    inWindow mode pid iname sid now r = true := by
  cases mode <;>
    simp only [inWindow, sameWindow, Bool.and_eq_true, beq_iff_eq] at * <;>
    exact ⟨⟨hs.1.1.symm, hs.1.2.symm⟩, hs.2.symm⟩

lemma inWindow_shift (mode : AttendanceMode) (pid : Nat) (iname sid : String)
    (now now2 : Nat) (r : AttendanceRecord)
    (hday : mode = .daily → dayOf now2 = dayOf now)
    (h : inWindow mode pid iname sid now r = true) :
    inWindow mode pid iname sid now2 r = true := by
  cases mode
  · have hd := hday rfl
    simp only [inWindow, Bool.and_eq_true, beq_iff_eq] at *
    exact ⟨h.1, hd ▸ h.2⟩
  · exact h

lemma eligible_eq_true_iff (recs : List AttendanceRecord) (pid : Nat)
    (iname sid : String) (mode : AttendanceMode) (now : Nat) :
    eligible recs pid iname sid mode now = true ↔
      countWindow recs pid iname sid mode now = 0 := by
  simp [eligible, countWindow, List.length_eq_zero, List.filter_eq_nil_iff,
    List.any_eq_true]

lemma eligible_eq_false_of_mem (recs : List AttendanceRecord) (pid : Nat)
    (iname sid : String) (mode : AttendanceMode) (now : Nat)
    (r : AttendanceRecord) (hr : r ∈ recs)
    (hw : inWindow mode pid iname sid now r = true) :
    eligible recs pid iname sid mode now = false := by
  have hany : recs.any (inWindow mode pid iname sid now) = true :=
    List.any_eq_true.mpr ⟨r, hr, hw⟩
  simp [eligible, hany]

/-- C1 (counterexample): the persisted `attendance_records` table's
declared constraints (primary key on `id`, NOT NULL columns, foreign key
on `project_id`) do not enforce at-most-one record per (project,
identity, day or session): a table instance with two rows agreeing on
project id, name, calendar day and session id satisfies every declared
constraint. -/
theorem attendance_schema_allows_window_duplicates :
    schemaValid [1] dupAttendanceRows ∧
    ∃ r1 ∈ dupAttendanceRows, ∃ r2 ∈ dupAttendanceRows,
      r1 ≠ r2 ∧ r1.project_id = r2.project_id ∧ r1.name = r2.name ∧
      dayOf r1.marked_at = dayOf r2.marked_at ∧
      r1.session_id = r2.session_id := by
  decide

/-- C1 (amended): uniqueness per accounting window is maintained by the
ledger's check-then-insert, not by a table constraint: if the ledger
satisfies the at-most-one-record-per-window invariant for the active
policy, it still satisfies it after any `mark_if_eligible` call, so any
sequence of marking attempts preserves it. -/
theorem mark_if_eligible_preserves_uniqueWindows
    (mode : AttendanceMode) (recs : List AttendanceRecord) (pid : Nat)
    (iname sid : String) (now : Nat)
    (hu : uniqueWindows mode recs) :
    uniqueWindows mode (mark_if_eligible recs pid iname sid mode now).2 := by
  by_cases he : eligible recs pid iname sid mode now = true
  · rw [mark_if_eligible, if_pos he]
    rw [uniqueWindows, List.pairwise_cons]
    refine ⟨?_, hu⟩
    intro r hr
    by_contra hsw
    rw [Bool.not_eq_false] at hsw
    have hw := inWindow_of_sameWindow_new mode pid iname sid now r hsw
    rw [eligible_eq_false_of_mem recs pid iname sid mode now r hr hw] at he
    exact Bool.false_ne_true he
  · rw [mark_if_eligible, if_neg he]
    exact hu

/-- C1 (witness): the amended invariant-preservation theorem applied to
the empty ledger and a concrete daily-mode mark. -/
theorem mark_if_eligible_preserves_uniqueWindows_witness :
    uniqueWindows .daily ([] : List AttendanceRecord) ∧
    uniqueWindows .daily
      (mark_if_eligible [] 1 "alice" "s1" .daily 100).2 :=
  ⟨by decide,
    mark_if_eligible_preserves_uniqueWindows .daily [] 1 "alice" "s1" 100
      (by decide)⟩

/-- C2: `mark_if_eligible` returns `Marked` and inserts exactly one new
record when no record exists in the current accounting window, returns
`AlreadyMarked` without inserting when one exists, and a second call
within the same window (same day for daily mode, same session id for
session mode) returns `AlreadyMarked` and leaves the ledger — hence
exactly one record — unchanged. -/
theorem mark_if_eligible_correct (recs : List AttendanceRecord) (pid : Nat)
    (iname sid : String) (mode : AttendanceMode) (now now2 : Nat)
    (hday : mode = .daily → dayOf now2 = dayOf now) :
    (countWindow recs pid iname sid mode now = 0 →
      mark_if_eligible recs pid iname sid mode now =
        (.Marked, ⟨pid, iname, now, sid⟩ :: recs) ∧
      countWindow (⟨pid, iname, now, sid⟩ :: recs) pid iname sid mode now
        = 1) ∧
    (0 < countWindow recs pid iname sid mode now →
      mark_if_eligible recs pid iname sid mode now = (.AlreadyMarked, recs)) ∧
    mark_if_eligible (mark_if_eligible recs pid iname sid mode now).2
        pid iname sid mode now2 =
      (.AlreadyMarked, (mark_if_eligible recs pid iname sid mode now).2) := by
  refine ⟨?_, ?_, ?_⟩
  · intro h0
    have he : eligible recs pid iname sid mode now = true :=
      (eligible_eq_true_iff recs pid iname sid mode now).mpr h0
    constructor
    · rw [mark_if_eligible, if_pos he]
    · have h0' : (recs.filter (inWindow mode pid iname sid now)).length = 0 :=
        h0
      simp [countWindow, List.filter_cons, inWindow_newRecord, h0']
  · intro hpos
    have he : eligible recs pid iname sid mode now = false := by
      by_contra hne
      rw [Bool.not_eq_false] at hne
      rw [(eligible_eq_true_iff recs pid iname sid mode now).mp hne] at hpos
      exact absurd hpos (lt_irrefl 0)
    rw [mark_if_eligible, if_neg (by simp [he])]
  · by_cases he : eligible recs pid iname sid mode now = true
    · have hsnd : (mark_if_eligible recs pid iname sid mode now).2 =
          ⟨pid, iname, now, sid⟩ :: recs := by
        rw [mark_if_eligible, if_pos he]
      rw [hsnd]
      have hw : inWindow mode pid iname sid now2
          (⟨pid, iname, now, sid⟩ : AttendanceRecord) = true :=
        inWindow_shift mode pid iname sid now now2 _ hday
          (inWindow_newRecord mode pid iname sid now)
      have he2 : eligible (⟨pid, iname, now, sid⟩ :: recs)
          pid iname sid mode now2 = false :=
        eligible_eq_false_of_mem _ pid iname sid mode now2 _
          (List.mem_cons_self _ _) hw
      rw [mark_if_eligible, if_neg (by simp [he2])]
    · have he' : eligible recs pid iname sid mode now = false := by
        simpa using he
      have hsnd : (mark_if_eligible recs pid iname sid mode now).2 = recs := by
        rw [mark_if_eligible, if_neg he]
      rw [hsnd]
      obtain ⟨r, hr, hw⟩ : ∃ r ∈ recs,
          inWindow mode pid iname sid now r = true := by
        simpa [eligible, List.any_eq_true] using he'
      have hw2 : inWindow mode pid iname sid now2 r = true :=
        inWindow_shift mode pid iname sid now now2 r hday hw
      have he2 : eligible recs pid iname sid mode now2 = false :=
        eligible_eq_false_of_mem recs pid iname sid mode now2 r hr hw2
      rw [mark_if_eligible, if_neg (by simp [he2])]

/-- C2 (witness): the correctness theorem applied to the empty ledger,
daily mode, with the second call later on the same calendar day. -/
theorem mark_if_eligible_correct_witness :
    (AttendanceMode.daily = AttendanceMode.daily →
      dayOf 200 = dayOf 100) ∧
    (countWindow ([] : List AttendanceRecord) 1 "alice" "s1" .daily 100 = 0 →
      mark_if_eligible ([] : List AttendanceRecord) 1 "alice" "s1" .daily 100 =
        (.Marked, [⟨1, "alice", 100, "s1"⟩]) ∧
      countWindow [⟨1, "alice", 100, "s1"⟩] 1 "alice" "s1" .daily 100 = 1) ∧
    (0 < countWindow ([] : List AttendanceRecord) 1 "alice" "s1" .daily 100 →
      mark_if_eligible ([] : List AttendanceRecord) 1 "alice" "s1" .daily 100 =
        (.AlreadyMarked, [])) ∧
    mark_if_eligible
        (mark_if_eligible ([] : List AttendanceRecord)
          1 "alice" "s1" .daily 100).2 1 "alice" "s1" .daily 200 =
      (.AlreadyMarked,
        (mark_if_eligible ([] : List AttendanceRecord)
          1 "alice" "s1" .daily 100).2) :=
  ⟨by decide, mark_if_eligible_correct [] 1 "alice" "s1" .daily 100 200
    (by decide)⟩

/-- C7: in daily mode two marks at 23:59:59 and 00:00:01 of the next
calendar day (UTC) both succeed and leave two records, while the same two
timestamps in session mode with the same session id leave exactly one
record, the second attempt answering `AlreadyMarked`. -/
theorem day_boundary_two_records_session_one :
    (mark_if_eligible
        (mark_if_eligible ([] : List AttendanceRecord)
          1 "alice" "s1" .daily 86399).2 1 "alice" "s1" .daily 86401).1 =
      .Marked ∧
    (mark_if_eligible
        (mark_if_eligible ([] : List AttendanceRecord)
          1 "alice" "s1" .daily 86399).2 1 "alice" "s1" .daily 86401).2.length
      = 2 ∧
    (mark_if_eligible
        (mark_if_eligible ([] : List AttendanceRecord)
          1 "alice" "s1" .session 86399).2 1 "alice" "s1" .session 86401).1 =
      .AlreadyMarked ∧
    (mark_if_eligible
        (mark_if_eligible ([] : List AttendanceRecord)
          1 "alice" "s1" .session 86399).2
        1 "alice" "s1" .session 86401).2.length = 1 := by
  decide

/-! ### UnknownTracker lemmas -/

lemma lookup_put_self (t : UnknownTracker) (sid tk : String)
    (s : UnknownStreak) : (t.put sid tk s).lookup sid tk = s := by
  simp [UnknownTracker.put, UnknownTracker.lookup, List.find?]

lemma observe_unknown_threshold (t : UnknownTracker) (sid tk : String) :
    ((observe_unknown t sid tk).2).threshold = t.threshold := by
  rw [observe_unknown]
  split <;> rfl

lemma iterUnknown_state (t : UnknownTracker) (sid tk : String)
    (h0 : t.lookup sid tk = ⟨0, false⟩) (hN : 1 ≤ t.threshold) :
    ∀ n, (iterUnknown t sid tk n).threshold = t.threshold ∧
      (iterUnknown t sid tk n).lookup sid tk =
        ⟨n, decide (t.threshold ≤ n)⟩ := by
  intro n
  induction n with
  | zero =>
      refine ⟨rfl, ?_⟩
      rw [show iterUnknown t sid tk 0 = t from rfl, h0,
        decide_eq_false (by omega : ¬ t.threshold ≤ 0)]
  | succ n ih =>
      obtain ⟨ihT, ihL⟩ := ih
      constructor
      · rw [show iterUnknown t sid tk (n + 1) =
            (observe_unknown (iterUnknown t sid tk n) sid tk).2 from rfl,
          observe_unknown_threshold, ihT]
      · rw [show iterUnknown t sid tk (n + 1) =
            (observe_unknown (iterUnknown t sid tk n) sid tk).2 from rfl,
          observe_unknown, ihL, ihT]
        by_cases hc : t.threshold ≤ n + 1
        · by_cases hp : t.threshold ≤ n
          · rw [if_neg (by simp [hp]), lookup_put_self,
              decide_eq_true hp, decide_eq_true hc]
          · rw [if_pos (by simp [hc, hp]), lookup_put_self,
              decide_eq_true hc]
        · have hp : ¬ t.threshold ≤ n := by omega
          rw [if_neg (by simp [hc]), lookup_put_self,
            decide_eq_false hp, decide_eq_false hc]

lemma resultAtCall_eq (t : UnknownTracker) (sid tk : String)
    (h0 : t.lookup sid tk = ⟨0, false⟩) (hN : 1 ≤ t.threshold) (k : Nat) :
    resultAtCall t sid tk k =
      if k + 1 = t.threshold then .Notify else .Silent := by
  obtain ⟨hT, hL⟩ := iterUnknown_state t sid tk h0 hN k
  rw [resultAtCall, observe_unknown, hL, hT]
  by_cases h : k + 1 = t.threshold
  · rw [if_pos h,
      if_pos (by simp [decide_eq_true (by omega : t.threshold ≤ k + 1),
        decide_eq_false (by omega : ¬ t.threshold ≤ k)])]
  · rw [if_neg h]
    by_cases hk : t.threshold ≤ k
    · rw [if_neg (by simp [decide_eq_true hk])]
    · rw [if_neg (by simp [decide_eq_false
        (by omega : ¬ t.threshold ≤ k + 1)])]

/-- C6: with streak threshold `N = t.threshold` and a fresh streak for the
key, the `(k+1)`-th consecutive `observe_unknown` call answers `Notify`
exactly when `k + 1 = N` — `Silent` for calls `1..N-1`, `Notify` once at
call `N`, `Silent` for every later call — and after `observe_known`
resets the streak (at any point `m`), the same pattern repeats. -/
theorem observe_unknown_streak_pattern (t : UnknownTracker)
    (sid tk : String) (h0 : t.lookup sid tk = ⟨0, false⟩)
    (hN : 1 ≤ t.threshold) :
    (∀ k, resultAtCall t sid tk k =
      if k + 1 = t.threshold then .Notify else .Silent) ∧
    ∀ m,
      (observe_known (iterUnknown t sid tk m) sid tk).lookup sid tk =
        ⟨0, false⟩ ∧
      (observe_known (iterUnknown t sid tk m) sid tk).threshold =
        t.threshold ∧
      ∀ k, resultAtCall (observe_known (iterUnknown t sid tk m) sid tk)
          sid tk k =
        if k + 1 = t.threshold then .Notify else .Silent := by
  refine ⟨fun k => resultAtCall_eq t sid tk h0 hN k, fun m => ?_⟩
  have hT : (iterUnknown t sid tk m).threshold = t.threshold :=
    (iterUnknown_state t sid tk h0 hN m).1
  have hL : (observe_known (iterUnknown t sid tk m) sid tk).lookup sid tk =
      ⟨0, false⟩ := lookup_put_self _ sid tk _
  have hT2 : (observe_known (iterUnknown t sid tk m) sid tk).threshold =
      t.threshold := hT
  refine ⟨hL, hT2, fun k => ?_⟩
  rw [resultAtCall_eq _ sid tk hL (hT2 ▸ hN) k, hT2]

/-- C6 (witness): the streak-pattern theorem applied to a fresh tracker
with threshold 2: calls 1, 2, 3 answer Silent, Notify, Silent. -/
theorem observe_unknown_streak_pattern_witness :
    (UnknownTracker.mk 2 []).lookup "s" "face0" = ⟨0, false⟩ ∧
    1 ≤ (UnknownTracker.mk 2 []).threshold ∧
    resultAtCall ⟨2, []⟩ "s" "face0" 0 = .Silent ∧
    resultAtCall ⟨2, []⟩ "s" "face0" 1 = .Notify ∧
    resultAtCall ⟨2, []⟩ "s" "face0" 2 = .Silent :=
  ⟨by decide, by decide,
    ((observe_unknown_streak_pattern ⟨2, []⟩ "s" "face0" (by decide)
      (by decide)).1 0).trans (by decide),
    ((observe_unknown_streak_pattern ⟨2, []⟩ "s" "face0" (by decide)
      (by decide)).1 1).trans (by decide),
    ((observe_unknown_streak_pattern ⟨2, []⟩ "s" "face0" (by decide)
      (by decide)).1 2).trans (by decide)⟩

/-! ### IdentityStore registry: build / current -/

/-- C8: `build` fails with `ValidationError` exactly when the vector list
is empty or the dimensions mismatch; on success the returned immutable
store carries the strictly increased registry version, holds exactly the
given vectors, and `current` returns it as the latest store for the
project; for a project with no published store `current` returns `none`
(`NotTrained`). -/
theorem build_current_contract (reg : StoreRegistry) (pid : Nat)
    (vectors : List IdentityVector) :
    (StoreRegistry.build reg pid vectors =
        .error .ValidationError ↔
      vectors = [] ∨ dimsConsistent vectors = false) ∧
    (∀ store reg2,
      StoreRegistry.build reg pid vectors = .ok (store, reg2) →
      store.version = reg.latestVersion + 1 ∧
      reg.latestVersion < store.version ∧
      reg2.latestVersion = store.version ∧
      store.vectors = vectors ∧ store.project_id = pid ∧
      StoreRegistry.current reg2 pid = some store) ∧
    ((∀ q ∈ reg.published, q.1 ≠ pid) →
      StoreRegistry.current reg pid = none) := by
  refine ⟨?_, ?_, ?_⟩
  · rw [StoreRegistry.build]
    by_cases hc : (vectors.isEmpty || !dimsConsistent vectors) = true
    · rw [if_pos hc]
      simp only [true_iff]
      simpa [List.isEmpty_iff] using hc
    · rw [if_neg hc]
      constructor
      · intro h
        exact absurd h (by simp)
      · intro h
        exact absurd (by simpa [List.isEmpty_iff] using h) hc
  · intro store reg2 h
    rw [StoreRegistry.build] at h
    by_cases hc : (vectors.isEmpty || !dimsConsistent vectors) = true
    · rw [if_pos hc] at h
      exact absurd h (by simp)
    · rw [if_neg hc] at h
      simp only [Except.ok.injEq, Prod.mk.injEq] at h
      obtain ⟨hstore, hreg⟩ := h
      subst hstore hreg
      refine ⟨rfl, Nat.lt_succ_self _, rfl, rfl, rfl, ?_⟩
      simp [StoreRegistry.current, List.find?]
  · intro hnone
    rw [StoreRegistry.current, List.find?_eq_none.mpr, Option.map_none']
    intro q hq
    simpa using hnone q hq

/-- C8 (witness): the contract applied to an empty registry and a
concrete two-identity vector list: the build succeeds with version 1 and
becomes current. -/
theorem build_current_contract_witness :
    StoreRegistry.build ⟨0, []⟩ 1
        [⟨"alice", [1, 0]⟩, ⟨"bob", [0, 1]⟩] =
      .ok (⟨1, 1, [⟨"alice", [1, 0]⟩, ⟨"bob", [0, 1]⟩]⟩,
        ⟨1, [(1, ⟨1, 1, [⟨"alice", [1, 0]⟩, ⟨"bob", [0, 1]⟩]⟩)]⟩) ∧
    ((⟨1, 1, [⟨"alice", [1, 0]⟩, ⟨"bob", [0, 1]⟩]⟩ :
        IdentityStoreV).version = 0 + 1 ∧
      0 < (⟨1, 1, [⟨"alice", [1, 0]⟩, ⟨"bob", [0, 1]⟩]⟩ :
        IdentityStoreV).version ∧
      (⟨1, [(1, ⟨1, 1, [⟨"alice", [1, 0]⟩, ⟨"bob", [0, 1]⟩]⟩)]⟩ :
        StoreRegistry).latestVersion =
        (⟨1, 1, [⟨"alice", [1, 0]⟩, ⟨"bob", [0, 1]⟩]⟩ :
          IdentityStoreV).version ∧
      (⟨1, 1, [⟨"alice", [1, 0]⟩, ⟨"bob", [0, 1]⟩]⟩ :
          IdentityStoreV).vectors =
        [⟨"alice", [1, 0]⟩, ⟨"bob", [0, 1]⟩] ∧
      (⟨1, 1, [⟨"alice", [1, 0]⟩, ⟨"bob", [0, 1]⟩]⟩ :
          IdentityStoreV).project_id = 1 ∧
      StoreRegistry.current
          ⟨1, [(1, ⟨1, 1, [⟨"alice", [1, 0]⟩, ⟨"bob", [0, 1]⟩]⟩)]⟩ 1 =
        some ⟨1, 1, [⟨"alice", [1, 0]⟩, ⟨"bob", [0, 1]⟩]⟩) :=
  ⟨rfl,
    (build_current_contract ⟨0, []⟩ 1
      [⟨"alice", [1, 0]⟩, ⟨"bob", [0, 1]⟩]).2.1 _ _ rfl⟩

/-! ### Training metrics display -/

/-- C9: the displayed intra/inter-class metrics are not measured — for
any training result with positive accuracy `a`, `displayModelMetrics`
shows intra = `0.65 + a/200` and inter = `(100 - a)/150`, each rounded to
four decimal places, and the two values depend on nothing but the
accuracy field. -/
theorem displayModelMetrics_formula (training : TrainingInfo) (a : ℚ)
    (ha : training.accuracy = some a) (hpos : 0 < a) :
    (displayModelMetrics training).intra =
      some (round4 (65 / 100 + a / 200)) ∧
    (displayModelMetrics training).inter =
      some (round4 ((100 - a) / 150)) ∧
    ∀ training2, training2.accuracy = training.accuracy →
      (displayModelMetrics training2).intra =
        (displayModelMetrics training).intra ∧
      (displayModelMetrics training2).inter =
        (displayModelMetrics training).inter := by
  have hgetD : training.accuracy.getD 0 = a := by rw [ha]; rfl
  refine ⟨?_, ?_, ?_⟩
  · simp [displayModelMetrics, hgetD, hpos]
  · simp [displayModelMetrics, hgetD, hpos]
  · intro t2 h2
    have h2' : t2.accuracy.getD 0 = a := by rw [h2, ha]; rfl
    constructor <;> simp [displayModelMetrics, h2', hgetD]

/-- C9 (witness): the formula theorem applied to a concrete training
result with accuracy 90 (and other fields that the formulas ignore). -/
theorem displayModelMetrics_formula_witness :
    (TrainingInfo.mk (some 90) (some 80) 3 30 0 12).accuracy = some 90 ∧
    (0 : ℚ) < 90 ∧
    (displayModelMetrics ⟨some 90, some 80, 3, 30, 0, 12⟩).intra =
      some (round4 (65 / 100 + 90 / 200)) ∧
    (displayModelMetrics ⟨some 90, some 80, 3, 30, 0, 12⟩).inter =
      some (round4 ((100 - 90) / 150)) :=
  ⟨rfl, by norm_num,
    (displayModelMetrics_formula ⟨some 90, some 80, 3, 30, 0, 12⟩ 90 rfl
      (by norm_num)).1,
    (displayModelMetrics_formula ⟨some 90, some 80, 3, 30, 0, 12⟩ 90 rfl
      (by norm_num)).2.1⟩

/-! ### Session registry lemmas -/

lemma countActive_cons (s : RecognitionSession)
    (rest : List RecognitionSession) (pid : Nat) :
    countActive (s :: rest) pid =
      (if isActiveFor pid s then 1 else 0) + countActive rest pid := by
  by_cases h : isActiveFor pid s = true
  · simp [countActive, List.filter_cons, h, Nat.add_comm]
  · simp [countActive, List.filter_cons, h]

lemma countActive_stopProject_self (sessions : List RecognitionSession)
    (pid : Nat) : countActive (stopProject sessions pid) pid = 0 := by
  induction sessions with
  | nil => rfl
  | cons s rest ih =>
      rw [stopProject, List.map_cons, ← stopProject, countActive_cons, ih]
      by_cases hc : (s.project_id == pid &&
          s.state == SessionState.Active) = true
      · rw [if_pos hc]
        simp [isActiveFor]
      · rw [if_neg hc]
        have : isActiveFor pid s = false := by
          simpa [isActiveFor] using hc
        simp [this]

lemma countActive_stopProject_other (sessions : List RecognitionSession)
    (pid pid2 : Nat) (h : pid2 ≠ pid) :
    countActive (stopProject sessions pid) pid2 =
      countActive sessions pid2 := by
  induction sessions with
  | nil => rfl
  | cons s rest ih =>
      rw [stopProject, List.map_cons, ← stopProject, countActive_cons, ih,
        countActive_cons]
      by_cases hc : (s.project_id == pid &&
          s.state == SessionState.Active) = true
      · rw [if_pos hc]
        have hp : s.project_id = pid := by
          have h' := hc
          simp only [Bool.and_eq_true, beq_iff_eq] at h'
          exact h'.1
        have h1 : isActiveFor pid2 ({ s with state := .Stopped } :
            RecognitionSession) = false := by
          simp [isActiveFor]
        have h2 : isActiveFor pid2 s = false := by
          simp [isActiveFor, hp]
          intro hcontra
          exact absurd hcontra.symm h
        rw [h1, h2]
      · rw [if_neg hc]

/-- C3: the at-most-one-Active-session-per-project invariant is preserved
by `start_session` (both when a store exists and on the `NotTrained`
failure path); starting session B for a project stops every Active
session A of that project before B reaches Active; and a Stopped session
drops any further embedding without touching the ledger, so nothing it
processes after the stop is marked. -/
theorem session_exclusivity (sessions : List RecognitionSession)
    (sid : String) (pid uid : Nat) (st : List IdentityVector)
    (hinv : AtMostOneActive sessions) :
    AtMostOneActive (start_session sessions sid pid uid (some st)) ∧
    AtMostOneActive (start_session sessions sid pid uid none) ∧
    (∀ s ∈ stopProject sessions pid,
      ¬(s.project_id = pid ∧ s.state = .Active)) ∧
    (∀ (threshold eps : ℚ) (s : RecognitionSession)
        (recs : List AttendanceRecord) (emb : List ℚ)
        (mode : AttendanceMode) (now : Nat), s.state = .Stopped →
      process_embedding threshold eps s recs emb mode now =
        (.Dropped, recs)) := by
  refine ⟨?_, hinv, ?_, ?_⟩
  · intro pid2
    rw [start_session, countActive_cons]
    by_cases hp : pid2 = pid
    · subst hp
      rw [countActive_stopProject_self]
      have : isActiveFor pid2 (⟨sid, pid2, uid, .Active, st⟩ :
          RecognitionSession) = true := by
        simp [isActiveFor]
      rw [this]
      simp
    · rw [countActive_stopProject_other sessions pid pid2 hp]
      have : isActiveFor pid2 (⟨sid, pid, uid, .Active, st⟩ :
          RecognitionSession) = false := by
        simp [isActiveFor]
        intro hcontra
        exact absurd hcontra.symm hp
      rw [this]
      simpa using hinv pid2
  · intro s' hs'
    rw [stopProject] at hs'
    obtain ⟨s, _, rfl⟩ := List.mem_map.mp hs'
    by_cases hc : (s.project_id == pid && s.state == SessionState.Active)
        = true
    · rw [if_pos hc]
      rintro ⟨-, hstate⟩
      exact SessionState.noConfusion hstate
    · rw [if_neg hc]
      rintro ⟨hpid2, hstate⟩
      exact absurd (by simp [hpid2, hstate]) hc
  · intro threshold eps s recs emb mode now hs
    rw [process_embedding, if_neg (by simp [hs])]

/-- C3 (witness): the exclusivity theorem applied to a registry holding
one Active session of project 1; starting a fresh session for project 1
keeps the invariant, the old session is stopped, and a Stopped session
drops embeddings. -/
theorem session_exclusivity_witness :
    AtMostOneActive [⟨"a", 1, 7, .Active, []⟩] ∧
    (AtMostOneActive (start_session [⟨"a", 1, 7, .Active, []⟩]
        "b" 1 8 (some [⟨"alice", [1]⟩])) ∧
      AtMostOneActive (start_session [⟨"a", 1, 7, .Active, []⟩]
        "b" 1 8 none) ∧
      (∀ s ∈ stopProject [⟨"a", 1, 7, .Active, []⟩] 1,
        ¬(s.project_id = 1 ∧ s.state = .Active)) ∧
      (∀ (threshold eps : ℚ) (s : RecognitionSession)
          (recs : List AttendanceRecord) (emb : List ℚ)
          (mode : AttendanceMode) (now : Nat), s.state = .Stopped →
        process_embedding threshold eps s recs emb mode now =
          (.Dropped, recs))) :=
  ⟨fun _ => (List.length_filter_le _ _).trans (by decide),
    session_exclusivity [⟨"a", 1, 7, .Active, []⟩] "b" 1 8
      [⟨"alice", [1]⟩]
      (fun _ => (List.length_filter_le _ _).trans (by decide))⟩

/-- C5: atomically publishing a new IdentityStore for a project
(`replaceStore`, a training run completing) does not alter any existing
session — in particular not its bound store — and does not alter the
outcome of processing any embedding through any session: the recognition
result and the resulting ledger are the same before and after the
replacement, until the session is stopped and a restart rebinds the
current store. -/
theorem retrain_isolation (sys : SysState) (pid : Nat)
    (st : List IdentityVector) (threshold eps : ℚ) (sid : String)
    (emb : List ℚ) (mode : AttendanceMode) (now : Nat) :
    (sys.replaceStore pid st).sessions = sys.sessions ∧
    ((sys.replaceStore pid st).processEmbedding threshold eps sid emb mode
        now).1 =
      (sys.processEmbedding threshold eps sid emb mode now).1 ∧
    ((sys.replaceStore pid st).processEmbedding threshold eps sid emb mode
        now).2.records =
      (sys.processEmbedding threshold eps sid emb mode now).2.records := by
  refine ⟨rfl, ?_, ?_⟩ <;>
    cases hf : sys.sessions.find? (fun s => s.session_id == sid) <;>
      simp [SysState.processEmbedding, SysState.replaceStore, hf]

/-! ### Matcher lemmas -/

lemma ite_snd_max (p q : String × ℚ) :
    (if p.2 < q.2 then q else p).2 = max p.2 q.2 := by
  rcases lt_or_le p.2 q.2 with h | h
  · rw [if_pos h, max_eq_right h.le]
  · rw [if_neg (not_lt.mpr h), max_eq_left h]

lemma topPair_snd (p : String × ℚ) (ps : List (String × ℚ)) :
    (topPair p ps).2 = maxScore p ps := by
  induction ps generalizing p with
  | nil => rfl
  | cons q qs ih =>
      rw [topPair, ih, maxScore, maxScore, List.map_cons, List.foldl_cons,
        ite_snd_max]

lemma topPair_mem (p : String × ℚ) (ps : List (String × ℚ)) :
    topPair p ps ∈ p :: ps := by
  induction ps generalizing p with
  | nil => exact List.mem_singleton.mpr rfl
  | cons q qs ih =>
      rw [topPair]
      rcases List.mem_cons.mp (ih (if p.2 < q.2 then q else p)) with h1 | h1
      · rw [h1]
        by_cases hlt : p.2 < q.2
        · rw [if_pos hlt]
          exact List.mem_cons_of_mem _ (List.mem_cons_self _ _)
        · rw [if_neg hlt]
          exact List.mem_cons_self _ _
      · exact List.mem_cons_of_mem _ (List.mem_cons_of_mem _ h1)

lemma le_foldl_max (x : ℚ) (l : List ℚ) : x ≤ l.foldl max x := by
  induction l generalizing x with
  | nil => exact le_refl x
  | cons a l ih => exact le_trans (le_max_left x a) (ih (max x a))

lemma mem_le_foldl_max (a x : ℚ) (l : List ℚ) (ha : a ∈ l) :
    a ≤ l.foldl max x := by
  induction l generalizing x with
  | nil => exact absurd ha (List.not_mem_nil a)
  | cons b l ih =>
      rcases List.mem_cons.mp ha with h | h
      · rw [h, List.foldl_cons]
        exact le_trans (le_max_right x b) (le_foldl_max _ _)
      · exact ih _ h

lemma maxScore_ge (p : String × ℚ) (ps : List (String × ℚ))
    (q : String × ℚ) (hq : q ∈ p :: ps) : q.2 ≤ maxScore p ps := by
  rcases List.mem_cons.mp hq with h | h
  · rw [h]
    exact le_foldl_max _ _
  · exact mem_le_foldl_max _ _ _ (List.mem_map_of_mem Prod.snd h)

lemma maxScore_mem (p : String × ℚ) (ps : List (String × ℚ)) :
    maxScore p ps ∈ (p :: ps).map Prod.snd := by
  rw [← topPair_snd]
  exact List.mem_map_of_mem Prod.snd (topPair_mem p ps)

lemma maxScore_perm (p p2 : String × ℚ) (ps ps2 : List (String × ℚ))
    (h : (p :: ps).Perm (p2 :: ps2)) : maxScore p ps = maxScore p2 ps2 := by
  apply le_antisymm
  · obtain ⟨q, hq, hq2⟩ := List.mem_map.mp (maxScore_mem p ps)
    rw [← hq2]
    exact maxScore_ge p2 ps2 q (h.mem_iff.mp hq)
  · obtain ⟨q, hq, hq2⟩ := List.mem_map.mp (maxScore_mem p2 ps2)
    rw [← hq2]
    exact maxScore_ge p ps q (h.symm.mem_iff.mp hq)

lemma simScores_cons (iv : IdentityVector) (ivs : List IdentityVector)
    (emb : List ℚ) :
    simScores (iv :: ivs) emb =
      (iv.identity_name, sim iv.vector emb) :: simScores ivs emb := by
  simp [simScores]

lemma matchEmb_cons (threshold eps : ℚ) (iv : IdentityVector)
    (ivs : List IdentityVector) (emb : List ℚ) :
    matchEmb threshold eps (iv :: ivs) emb =
      if 2 ≤ tieCount eps (iv :: ivs) emb then
        .Unknown (topScoreOf (iv :: ivs) emb)
      else if threshold ≤ topScoreOf (iv :: ivs) emb then
        .Known (topPair (iv.identity_name, sim iv.vector emb)
          (simScores ivs emb)).1 (topScoreOf (iv :: ivs) emb)
      else .Unknown (topScoreOf (iv :: ivs) emb) := by
  have htop : (topPair (iv.identity_name, sim iv.vector emb)
      (simScores ivs emb)).2 = topScoreOf (iv :: ivs) emb :=
    topPair_snd _ _
  simp only [matchEmb, tieCount, topScoreOf, simScores_cons, htop]

lemma matchEmb_unknown_char (threshold eps : ℚ) (iv : IdentityVector)
    (ivs : List IdentityVector) (emb : List ℚ) :
    matchEmb threshold eps (iv :: ivs) emb =
        .Unknown (topScoreOf (iv :: ivs) emb) ↔
      2 ≤ tieCount eps (iv :: ivs) emb ∨
        topScoreOf (iv :: ivs) emb < threshold := by
  rw [matchEmb_cons]
  by_cases h1 : 2 ≤ tieCount eps (iv :: ivs) emb
  · simp [h1]
  · rw [if_neg h1]
    by_cases h2 : threshold ≤ topScoreOf (iv :: ivs) emb
    · rw [if_pos h2]
      simp [h1, not_lt.mpr h2]
    · rw [if_neg h2]
      simp [h1, not_le.mp h2]

/-- C4: for a non-empty store, `matchEmb` answers exactly one of
`Known`/`Unknown`, always carrying the maximal similarity score; any
`Known` answer means the top score reached the threshold and no second
identity lay within `eps` of it; whenever two entries lie within `eps` of
the top score the answer is downgraded to `Unknown`; the threshold-met,
no-tie case answers `Known`; and the `Unknown` outcome is invariant under
any permutation of the store (never resolved by array order). -/
theorem matcher_contract (threshold eps : ℚ) (store : List IdentityVector)
    (emb : List ℚ) (hne : store ≠ []) :
    ((∃ n, matchEmb threshold eps store emb =
        .Known n (topScoreOf store emb)) ∨
      matchEmb threshold eps store emb =
        .Unknown (topScoreOf store emb)) ∧
    (∀ n s, matchEmb threshold eps store emb = .Known n s →
      threshold ≤ s ∧ s = topScoreOf store emb ∧
        tieCount eps store emb < 2) ∧
    (2 ≤ tieCount eps store emb →
      matchEmb threshold eps store emb =
        .Unknown (topScoreOf store emb)) ∧
    (threshold ≤ topScoreOf store emb → tieCount eps store emb < 2 →
      ∃ n, matchEmb threshold eps store emb =
        .Known n (topScoreOf store emb)) ∧
    (∀ store2, store2.Perm store →
      (matchEmb threshold eps store2 emb =
          .Unknown (topScoreOf store emb) ↔
        matchEmb threshold eps store emb =
          .Unknown (topScoreOf store emb))) := by
  obtain ⟨iv, ivs, rfl⟩ := List.exists_cons_of_ne_nil hne
  refine ⟨?_, ?_, ?_, ?_, ?_⟩
  · rw [matchEmb_cons]
    by_cases h1 : 2 ≤ tieCount eps (iv :: ivs) emb
    · rw [if_pos h1]
      exact Or.inr rfl
    · rw [if_neg h1]
      by_cases h2 : threshold ≤ topScoreOf (iv :: ivs) emb
      · rw [if_pos h2]
        exact Or.inl ⟨_, rfl⟩
      · rw [if_neg h2]
        exact Or.inr rfl
  · intro n s h
    rw [matchEmb_cons] at h
    by_cases h1 : 2 ≤ tieCount eps (iv :: ivs) emb
    · rw [if_pos h1] at h
      exact absurd h (by simp)
    · rw [if_neg h1] at h
      by_cases h2 : threshold ≤ topScoreOf (iv :: ivs) emb
      · rw [if_pos h2] at h
        obtain ⟨-, hs⟩ := MatchResult.Known.inj h
        exact ⟨hs ▸ h2, hs.symm, not_le.mp h1⟩
      · rw [if_neg h2] at h
        exact absurd h (by simp)
  · intro h1
    rw [matchEmb_cons, if_pos h1]
  · intro h2 h1
    rw [matchEmb_cons, if_neg (not_le.mpr (by omega)), if_pos h2]
    exact ⟨_, rfl⟩
  · intro store2 hperm
    have hne2 : store2 ≠ [] := by
      intro hnil
      rw [hnil] at hperm
      simpa using hperm.length_eq
    obtain ⟨iv2, ivs2, rfl⟩ := List.exists_cons_of_ne_nil hne2
    have hpermS : simScores (iv2 :: ivs2) emb |>.Perm
        (simScores (iv :: ivs) emb) := hperm.map _
    have hT2 : topScoreOf (iv2 :: ivs2) emb =
        topScoreOf (iv :: ivs) emb := by
      rw [topScoreOf, topScoreOf]
      exact maxScore_perm _ _ _ _ (by
        rw [← simScores_cons, ← simScores_cons]
        exact hpermS)
    have htie2 : tieCount eps (iv2 :: ivs2) emb =
        tieCount eps (iv :: ivs) emb := by
      rw [tieCount, tieCount, hT2]
      exact (hpermS.filter _).length_eq
    have h1 := matchEmb_unknown_char threshold eps iv2 ivs2 emb
    have h2 := matchEmb_unknown_char threshold eps iv ivs emb
    rw [hT2, htie2] at h1
    exact h1.trans h2.symm

/-- C4 (witness): the matcher contract applied to the spec's end-to-end
example: store {alice ↦ (1,0), bob ↦ (0,1)}, embedding (4/5, 3/10),
threshold 3/5, epsilon 1/100 — the scores are 4/5 and 3/10, no tie, and
the threshold-met no-tie part yields a `Known` answer at the top score
4/5. -/
theorem matcher_contract_witness :
    ([⟨"alice", [1, 0]⟩, ⟨"bob", [0, 1]⟩] : List IdentityVector) ≠ [] ∧
    (3 / 5 : ℚ) ≤ topScoreOf [⟨"alice", [1, 0]⟩, ⟨"bob", [0, 1]⟩]
      [4 / 5, 3 / 10] ∧
    tieCount (1 / 100) [⟨"alice", [1, 0]⟩, ⟨"bob", [0, 1]⟩]
      [4 / 5, 3 / 10] < 2 ∧
    ∃ n, matchEmb (3 / 5) (1 / 100)
        [⟨"alice", [1, 0]⟩, ⟨"bob", [0, 1]⟩] [4 / 5, 3 / 10] =
      .Known n (topScoreOf [⟨"alice", [1, 0]⟩, ⟨"bob", [0, 1]⟩]
        [4 / 5, 3 / 10]) :=
  ⟨by decide,
    by norm_num [topScoreOf, maxScore, simScores, sim, max_def],
    by norm_num [tieCount, topScoreOf, maxScore, simScores, sim, max_def,
      List.filter],
    (matcher_contract (3 / 5) (1 / 100)
        [⟨"alice", [1, 0]⟩, ⟨"bob", [0, 1]⟩] [4 / 5, 3 / 10]
        (by decide)).2.2.2.1
      (by norm_num [topScoreOf, maxScore, simScores, sim, max_def])
      (by norm_num [tieCount, topScoreOf, maxScore, simScores, sim, max_def,
        List.filter])⟩

/-! ### Embedding pipeline lemmas -/

lemma padTo512_length (xs : List ℝ) : (padTo512 xs).length = 512 := by
  rw [padTo512]
  by_cases h : xs.length < 512
  · rw [if_pos h]
    simp
    omega
  · rw [if_neg h]
    simp
    omega

lemma sumSq_nonneg (xs : List ℝ) : 0 ≤ sumSq xs := by
  apply List.sum_nonneg
  intro x hx
  obtain ⟨y, -, rfl⟩ := List.mem_map.mp hx
  exact mul_self_nonneg y

lemma l2normalize_length (xs : List ℝ) :
    (l2normalize xs).length = xs.length := by
  simp [l2normalize]

lemma sumSq_l2normalize (xs : List ℝ) (h : sumSq xs ≠ 0) :
    sumSq (l2normalize xs) = 1 := by
  have hs : Real.sqrt (sumSq xs) * Real.sqrt (sumSq xs) = sumSq xs :=
    Real.mul_self_sqrt (sumSq_nonneg xs)
  have step1 : sumSq (l2normalize xs) =
      (xs.map (fun x => x * x *
        (Real.sqrt (sumSq xs) * Real.sqrt (sumSq xs))⁻¹)).sum := by
    rw [sumSq, l2normalize, List.map_map]
    congr 1
    apply List.map_congr_left
    intro x _
    show x / Real.sqrt (sumSq xs) * (x / Real.sqrt (sumSq xs)) = _
    rw [div_mul_div_comm, div_eq_mul_inv]
  rw [step1, List.sum_map_mul_right, hs, ← sumSq]
  exact mul_inv_cancel₀ h

lemma addInto_length (s e : List ℝ) (hs : s.length = 512)
    (he : e.length = 512) : (addInto s e).length = 512 := by
  simp [addInto, hs, he]

lemma foldl_addInto_length (embs : List (List ℝ))
    (hembs : ∀ e ∈ embs, e.length = 512) :
    ∀ acc : List ℝ, acc.length = 512 →
      (embs.foldl addInto acc).length = 512 := by
  induction embs with
  | nil => intro acc hacc; exact hacc
  | cons e rest ih =>
      intro acc hacc
      rw [List.foldl_cons]
      exact ih (fun x hx => hembs x (List.mem_cons_of_mem e hx)) _
        (addInto_length acc e hacc (hembs e (List.mem_cons_self e rest)))

lemma avgVector_length (embs : List (List ℝ))
    (hembs : ∀ e ∈ embs, e.length = 512) :
    (avgVector embs).length = 512 := by
  rw [avgVector, List.length_map]
  exact foldl_addInto_length embs hembs _ (by rw [List.length_replicate])

/-- C10: every embedding leaving the browser ML client's pipeline has
exactly 512 components — the raw model output is zero-padded or truncated
to 512 before normalization, and the averaged embedding is built on a
512-slot accumulator — and whenever the pre-normalization vector has
nonzero Euclidean norm, the emitted vector has unit L2 norm: the sum of
its squared components is exactly 1 (in the real-arithmetic idealization
of the source's floating point). -/
theorem embedding_pipeline_contract (raw : List ℝ) (embs : List (List ℝ))
    (hembs : ∀ e ∈ embs, e.length = 512) :
    (embeddingPostprocess raw).length = 512 ∧
    (sumSq (padTo512 raw) ≠ 0 → sumSq (embeddingPostprocess raw) = 1) ∧
    (averageEmbeddings embs).length = 512 ∧
    (sumSq (avgVector embs) ≠ 0 → sumSq (averageEmbeddings embs) = 1) := by
  refine ⟨?_, ?_, ?_, ?_⟩
  · rw [embeddingPostprocess, l2normalize_length, padTo512_length]
  · intro h
    rw [embeddingPostprocess]
    exact sumSq_l2normalize _ h
  · rw [averageEmbeddings, l2normalize_length]
    exact avgVector_length embs hembs
  · intro h
    rw [averageEmbeddings]
    exact sumSq_l2normalize _ h

lemma zipWith_add_replicate_zero (e : List ℝ) :
    List.zipWith (fun a b => a + b) (List.replicate e.length 0) e = e := by
  induction e with
  | nil => rfl
  | cons x xs ih =>
      rw [List.length_cons, List.replicate_succ, List.zipWith_cons_cons,
        ih, zero_add]

lemma addInto_replicate_zero (e : List ℝ) (he : e.length = 512) :
    addInto (List.replicate 512 0) e = e := by
  rw [addInto, ← he, zipWith_add_replicate_zero, List.drop_replicate,
    Nat.sub_self, List.replicate_zero, List.append_nil]

/-- C10 (witness): the pipeline contract applied to the raw one-component
output `[1]` and to one all-ones 512-component embedding: both results
have 512 components and unit L2 norm. -/
theorem embedding_pipeline_contract_witness :
    (∀ e ∈ [List.replicate 512 (1 : ℝ)], e.length = 512) ∧
    sumSq (padTo512 [(1 : ℝ)]) ≠ 0 ∧
    sumSq (avgVector [List.replicate 512 (1 : ℝ)]) ≠ 0 ∧
    (embeddingPostprocess [(1 : ℝ)]).length = 512 ∧
    sumSq (embeddingPostprocess [(1 : ℝ)]) = 1 ∧
    (averageEmbeddings [List.replicate 512 (1 : ℝ)]).length = 512 ∧
    sumSq (averageEmbeddings [List.replicate 512 (1 : ℝ)]) = 1 := by
  have hembs : ∀ e ∈ [List.replicate 512 (1 : ℝ)], e.length = 512 := by
    intro e he
    rw [List.mem_singleton] at he
    rw [he, List.length_replicate]
  have hpad : sumSq (padTo512 [(1 : ℝ)]) ≠ 0 := by
    have hp : padTo512 [(1 : ℝ)] = 1 :: List.replicate 511 0 := by
      rw [padTo512, if_pos (by norm_num)]
      rfl
    rw [hp, sumSq, List.map_cons, List.map_replicate, List.sum_cons,
      List.sum_replicate]
    norm_num
  have havg : sumSq (avgVector [List.replicate 512 (1 : ℝ)]) ≠ 0 := by
    rw [avgVector, List.foldl_cons, List.foldl_nil,
      addInto_replicate_zero _ (by rw [List.length_replicate]),
      List.map_replicate, sumSq, List.map_replicate, List.sum_replicate]
    norm_num
  obtain ⟨h1, h2, h3, h4⟩ :=
    embedding_pipeline_contract [(1 : ℝ)] [List.replicate 512 (1 : ℝ)] hembs
  exact ⟨hembs, hpad, havg, h1, h2 hpad, h3, h4 havg⟩

end RupX
